import Mathlib

/-!
# prwatch: the execution plan and the two-phase executor

A shallow embedding of `internal/executor.go` of `acaloiaro/prwatch`, followed by
theorems about it.

* Part 1 embeds `time.ParseDuration` of the Go standard library (`time/format.go`),
  which decides `DualPassEnabled`, `dualPassInterval` and `DualPassTimer`.
* Part 2 embeds `DualPassEnabled`, `dualPassInterval`, `DefaultExecutionPlan` and
  `executor.Execute`. Calls to the collaborators are threaded through an explicit
  state and every call is recorded in a list of events.

Go strings are byte sequences. Environment values are Lean strings and are scanned
character by character; the two scans agree because every byte that the parser
tests for (`+`, `-`, `.`, the digits) is ASCII.
-/

namespace Prwatch

/-! ## Part 1: `time.ParseDuration` -/

/-- A `time.Duration`: a signed count of nanoseconds (an `int64` in Go). -/
abbrev Duration := Int

/-- The constant `time.Second`, in nanoseconds. -/
def Second : Duration := 1000000000

/-- The three error texts of `time.ParseDuration` (the quoted input is left out). -/
inductive ParseError where
  | invalidDuration
  | missingUnit
  | unknownUnit (u : String)
  deriving DecidableEq, Repr

/-- A binary64 number that is not negative: the finite number `m * 2 ^ e`, or `+Inf`. -/
inductive F64 where
  | fin (m : Nat) (e : Int)
  | inf
  deriving DecidableEq, Repr

/-- The position of the highest set bit of `n`, by halving at most `fuel` times. -/
def bitIndex : Nat → Nat → Nat
  | 0, _ => 0
  | fuel + 1, n => if n < 2 then 0 else bitIndex fuel (n / 2) + 1

/-- The binary64 number nearest to `num / den` (ties to even), for `den > 0`. The
exponent is chosen so that the mantissa falls in `[2^52, 2^53)`, but not below `-1074`
(the subnormal numbers); a rounded value of `2^1024` or more is `+Inf`. -/
def roundF64 (num den : Nat) : F64 :=
  if num = 0 then F64.fin 0 0
  else
    let k0 : Int := (bitIndex num num : Int) - (bitIndex den den : Int) - 52
    let scaled : Int → Nat × Nat := fun e =>
      if 0 ≤ e then (num, den * 2 ^ e.toNat) else (num * 2 ^ (-e).toNat, den)
    let e1 : Int := if (scaled k0).1 < (scaled k0).2 * 2 ^ 52 then k0 - 1 else k0
    let e : Int := if e1 < -1074 then -1074 else e1
    let n := (scaled e).1
    let d := (scaled e).2
    let q := n / d
    let r := n % d
    let m := if 2 * r > d ∨ (2 * r = d ∧ q % 2 = 1) then q + 1 else q
    if 0 ≤ e ∧ m * 2 ^ e.toNat ≥ 2 ^ 1024 then F64.inf else F64.fin m e

/-- The binary64 number nearest to `n * 2 ^ e / den`. -/
def roundScaled (n : Nat) (e : Int) (den : Nat) : F64 :=
  if 0 ≤ e then roundF64 (n * 2 ^ e.toNat) den else roundF64 n (den * 2 ^ (-e).toNat)

/-- The binary64 product `x * 10`, the statement `scale *= 10` of `leadingFraction`. -/
def F64.mul10 : F64 → F64
  | F64.fin m e => roundScaled (m * 10) e 1
  | F64.inf => F64.inf

/-- The binary64 product of two finite numbers. -/
def F64.mul : F64 → F64 → F64
  | F64.fin a ea, F64.fin b eb => roundScaled (a * b) (ea + eb) 1
  | _, _ => F64.inf

/-- The binary64 quotient `float64(unit) / scale` for `unit` below `2^53` and
`scale ≥ 1`; a quotient by `+Inf` is zero. -/
def F64.divNat (unit : Nat) : F64 → F64
  | F64.fin m e => roundScaled unit (-e) m
  | F64.inf => F64.fin 0 0

/-- The conversion `uint64(x)`: truncation. In `ParseDuration` the operand is finite
and below `2^63`. -/
def F64.toUint64 : F64 → Nat
  | F64.fin m e => if 0 ≤ e then m * 2 ^ e.toNat else m / 2 ^ (-e).toNat
  | F64.inf => 0

/-- The Go expression `uint64(float64(f) * (float64(unit) / scale))` of `ParseDuration`,
for `f > 0` and the binary64 `scale` that `leadingFraction` returns. -/
def fracNanos (f unit : Nat) (scale : F64) : Nat :=
  F64.toUint64 (F64.mul (roundF64 f 1) (F64.divNat unit scale))

/-- The function `leadingInt` of `time/format.go`: consumes the leading `[0-9]*`;
`none` is `errLeadingInt` (overflow). The second argument is the running value `x`. -/
def leadingInt : List Char → Nat → Option (Nat × List Char)
  | [], x => some (x, [])
  | c :: cs, x =>
    if c < '0' ∨ c > '9' then some (x, c :: cs)
    else if x > 2 ^ 63 / 10 then none
    else
      let y := x * 10 + c.toNat - '0'.toNat
      if y > 2 ^ 63 then none else leadingInt cs y

/-- The function `leadingFraction` of `time/format.go`: consumes the leading `[0-9]*`
after a period and returns the digits read as `x` with the binary64 `scale`, multiplied
by ten (and rounded) for every digit kept; digits after an overflow are skipped. -/
def leadingFraction : List Char → Nat → F64 → Bool → Nat × F64 × List Char
  | [], x, scale, _ => (x, scale, [])
  | c :: cs, x, scale, overflow =>
    if c < '0' ∨ c > '9' then (x, scale, c :: cs)
    else if overflow then leadingFraction cs x scale overflow
    else if x > (2 ^ 63 - 1) / 10 then leadingFraction cs x scale true
    else
      let y := x * 10 + c.toNat - '0'.toNat
      if y > 2 ^ 63 then leadingFraction cs x scale true
      else leadingFraction cs y (F64.mul10 scale) false

/-- The unit scan of `ParseDuration`: splits at the first period or digit. -/
def unitSpan : List Char → List Char × List Char
  | [] => ([], [])
  | c :: cs =>
    if c = '.' ∨ ('0' ≤ c ∧ c ≤ '9') then ([], c :: cs)
    else ((c :: (unitSpan cs).1), (unitSpan cs).2)

/-- The table `unitMap` of `time/format.go`: nanoseconds per unit. -/
def unitMap (u : String) : Option Nat :=
  if u = "ns" then some 1
  else if u = "us" then some 1000
  else if u = "µs" then some 1000
  else if u = "μs" then some 1000
  else if u = "ms" then some 1000000
  else if u = "s" then some 1000000000
  else if u = "m" then some 60000000000
  else if u = "h" then some 3600000000000
  else none

/-- The step `Consume (\.[0-9]*)?` of `ParseDuration`: after a period, the fraction `f`
with its `scale`, the rest of the input and `post`, whether a digit was read; without a
period nothing is consumed. -/
def fractionPart : List Char → Nat × F64 × List Char × Bool
  | '.' :: t =>
    let r := leadingFraction t 0 (F64.fin 1 0) false
    (r.1, r.2.1, r.2.2, t.length != r.2.2.length)
  | s => (0, F64.fin 1 0, s, false)

/-- One round of the loop `for s != ""` of `ParseDuration`, entered with `s` not
empty: reads a number, an optional fraction and a unit, and returns the value `v` of
the term in nanoseconds together with the rest of the input. -/
def parseTerm : List Char → Except ParseError (Nat × List Char)
  | [] => .error .invalidDuration
  | c :: cs =>
    if ¬ (c = '.' ∨ ('0' ≤ c ∧ c ≤ '9')) then .error .invalidDuration
    else
      match leadingInt (c :: cs) 0 with
      | none => .error .invalidDuration
      | some (v, s1) =>
        let pre : Bool := (c :: cs).length != s1.length
        let fr := fractionPart s1
        let f := fr.1
        let scale := fr.2.1
        let s2 := fr.2.2.1
        let post := fr.2.2.2
        if !pre && !post then .error .invalidDuration
        else
          let u := (unitSpan s2).1
          let s3 := (unitSpan s2).2
          if u.length = 0 then .error .missingUnit
          else
            match unitMap (String.mk u) with
            | none => .error (.unknownUnit (String.mk u))
            | some unit =>
              if v > 2 ^ 63 / unit then .error .invalidDuration
              else
                let v1 := if f > 0 then v * unit + fracNanos f unit scale else v * unit
                if f > 0 ∧ v1 > 2 ^ 63 then .error .invalidDuration
                else .ok (v1, s3)

/-- The loop `for s != ""` of `ParseDuration`, with the running total `d` (a `uint64`,
so the sum wraps at `2 ^ 64`). Every round consumes at least one character, so a fuel
of `s.length` is never used up (`parseTerms_fuel`); `none` stands for used-up fuel. -/
def parseTerms : Nat → List Char → Nat → Option (Except ParseError Nat)
  | _, [], d => some (.ok d)
  | 0, _ :: _, _ => none
  | fuel + 1, c :: cs, d =>
    match parseTerm (c :: cs) with
    | .error e => some (.error e)
    | .ok (v, rest) =>
      let d1 := (d + v) % 2 ^ 64
      if d1 > 2 ^ 63 then some (.error .invalidDuration)
      else parseTerms fuel rest d1

/-- The function `time.ParseDuration`: a signed sequence of decimal numbers, each with
an optional fraction and a unit suffix. -/
def ParseDuration (s : String) : Except ParseError Duration :=
  let orig := s.data
  let neg : Bool := match orig with
    | '-' :: _ => true
    | _ => false
  let s1 : List Char := match orig with
    | '-' :: t => t
    | '+' :: t => t
    | _ => orig
  if s1 = ['0'] then .ok 0
  else if s1 = [] then .error .invalidDuration
  else
    match parseTerms s1.length s1 0 with
    | none => .error .invalidDuration
    | some (.error e) => .error e
    | some (.ok d) =>
      if neg then .ok (-(d : Int))
      else if d > 2 ^ 63 - 1 then .error .invalidDuration
      else .ok (d : Int)

/-! ## Part 2: `internal/executor.go` -/

/-- The process environment: the value of each variable that is set. -/
abbrev Environ := String → Option String

/-- The function `os.Getenv`: the value of the variable, empty when it is not set. -/
def Getenv (env : Environ) (key : String) : String :=
  match env key with
  | some v => v
  | none => ""

/-- An environment in which only `DUAL_PASS_WAIT_DURATION` is set, to `v`. -/
def envWith (v : String) : Environ :=
  fun key => if key = "DUAL_PASS_WAIT_DURATION" then some v else none

/-- An environment in which no variable is set. -/
def envUnset : Environ := fun _ => none

/-- The function `DualPassEnabled`: whether `DUAL_PASS_WAIT_DURATION` parses. -/
def DualPassEnabled (env : Environ) : Bool :=
  match ParseDuration (Getenv env "DUAL_PASS_WAIT_DURATION") with
  | .error _ => false
  | .ok _ => true

/-- The function `dualPassInterval`: the parsed duration, zero when parsing fails. -/
def dualPassInterval (env : Environ) : Duration :=
  match ParseDuration (Getenv env "DUAL_PASS_WAIT_DURATION") with
  | .error _ => 0 * Second
  | .ok d => d

/-- A `*time.Timer` that is not nil: the timer made by `time.NewTimer d`. -/
structure Timer where
  d : Duration
  deriving DecidableEq, Repr

/-- The function `time.NewTimer`. -/
def NewTimer (d : Duration) : Timer := ⟨d⟩

/-- What a run does that is visible outside it. `listPulls` is a call of `ListPulls`,
`transition id` a call of `TransitionIssue` for the issue `id`; `dualPassTimer` and
`planExecute` are the executor calling these two methods of its plan; `tick` is the
`case <-tick` branch of the wait loop and `timerFired` its `case <-timer.C` branch.
Log lines are not recorded. -/
inductive Event where
  | listPulls
  | transition (id : String)
  | dualPassTimer
  | tick
  | timerFired
  | planExecute
  deriving DecidableEq, Repr

/-- The outcome of a call: its result, the state of the collaborators after it and
the events of the call, in order. -/
structure Run (σ α : Type) where
  result : α
  state : σ
  events : List Event

/-- The functions of package `internal` that `executor.go` calls and that live in other
files: `ListPulls` (its two results are the pull requests and the error),
`IssueID` (the id and whether one was found), `hasConflict`, and `TransitionIssue`
(whose result, here whether it succeeded, the caller drops). `σ` is the state of the
services behind them, `π` the pull requests, `κ` the `GithubQueryer` clients and `ε`
the Go errors. -/
structure Services (σ π κ ε : Type) where
  listPulls : κ → σ → (List π × Option ε) × σ
  IssueID : π → String × Bool
  hasConflict : π → Bool
  transitionIssue : String → σ → Bool × σ

section Model

variable {σ π κ ε : Type}

/-- The call `ListPulls(client)`, recorded. -/
def ListPulls (svc : Services σ π κ ε) (client : κ) (s : σ) : Run σ (List π × Option ε) :=
  ⟨(svc.listPulls client s).1, (svc.listPulls client s).2, [Event.listPulls]⟩

/-- The call `TransitionIssue(&jira.Issue{ID: issueID})`, recorded. -/
def TransitionIssue (svc : Services σ π κ ε) (issueID : String) (s : σ) : Run σ Bool :=
  ⟨(svc.transitionIssue issueID s).1, (svc.transitionIssue issueID s).2,
    [Event.transition issueID]⟩

/-- The type `DefaultExecutionPlan`. -/
structure DefaultExecutionPlan (κ : Type) where
  GithubClient : κ

/-- The loop `for _, pull := range pulls` of `DefaultExecutionPlan.Execute`. The
variables `issueID` and `ok` are declared before the loop and live across its rounds,
so they are carried along; the events so far are in `evs`. -/
def pullLoop (svc : Services σ π κ ε) :
    List π → String → Bool → σ → List Event → σ × List Event
  | [], _, _, s, evs => (s, evs)
  | pull :: rest, _, _, s, evs =>
    let issueID := (svc.IssueID pull).1
    let ok := (svc.IssueID pull).2
    if !ok then pullLoop svc rest issueID ok s evs
    else if svc.hasConflict pull then
      let r := TransitionIssue svc issueID s
      pullLoop svc rest issueID ok r.state (evs ++ r.events)
    else pullLoop svc rest issueID ok s evs

/-- The method `DefaultExecutionPlan.Execute`. -/
def DefaultExecutionPlan.Execute (svc : Services σ π κ ε) (e : DefaultExecutionPlan κ)
    (s : σ) : Run σ (Option ε) :=
  let l := ListPulls svc e.GithubClient s
  match l.result.2 with
  | some err => ⟨some err, l.state, l.events⟩
  | none =>
    let r := pullLoop svc l.result.1 "" false l.state l.events
    ⟨none, r.1, r.2⟩

/-- The method `DefaultExecutionPlan.client`. -/
def DefaultExecutionPlan.client (e : DefaultExecutionPlan κ) : κ := e.GithubClient

/-- The method `DefaultExecutionPlan.DualPassTimer`: a timer when the interval is
above zero, nil (`none`) otherwise. -/
def DefaultExecutionPlan.DualPassTimer (env : Environ) (_e : DefaultExecutionPlan κ) :
    Option Timer :=
  if dualPassInterval env > 0 then some (NewTimer (dualPassInterval env)) else none

/-- The interface `executionPlan`. -/
structure executionPlan (σ κ ε : Type) where
  Execute : σ → Run σ (Option ε)
  DualPassTimer : σ → Run σ (Option Timer)
  client : κ

/-- A `DefaultExecutionPlan` as an `executionPlan`. -/
def DefaultExecutionPlan.toPlan (svc : Services σ π κ ε) (env : Environ)
    (e : DefaultExecutionPlan κ) : executionPlan σ κ ε where
  Execute := DefaultExecutionPlan.Execute svc e
  DualPassTimer := fun s => ⟨DefaultExecutionPlan.DualPassTimer env e, s, []⟩
  client := DefaultExecutionPlan.client e

/-- The type `executor`. -/
structure executor (σ κ ε : Type) where
  executionPlan : executionPlan σ κ ε

/-- The function `NewExecutor`. -/
def NewExecutor (s : executionPlan σ κ ε) : executor σ κ ε := ⟨s⟩

/-- Which case of the `select` of the wait loop is taken in one round. -/
inductive Ready where
  | tick
  | timer
  deriving DecidableEq, Repr

/-- How `executor.Execute` ends: it returns the plan's result; or it stops with a nil
pointer dereference; or it waits forever, no case of the `select` ever being ready. -/
inductive Outcome (ε : Type) where
  | returned (err : Option ε)
  | nilDereference
  | blocked
  deriving DecidableEq, Repr

/-- How the wait loop ends. -/
inductive LoopExit where
  | done
  | nilDereference
  | blocked
  deriving DecidableEq, Repr

/-- The loop `for !done { select { ... } }` of `executor.Execute`. Each round first
evaluates the channel operand `timer.C`, which faults when `timer` is nil; then one
ready case is taken, as the schedule says. A schedule that ends before the timer case
is taken leaves the loop waiting forever. -/
def waitLoop (timer : Option Timer) : List Ready → List Event → LoopExit × List Event
  | sched, evs =>
    match timer with
    | none => (LoopExit.nilDereference, evs)
    | some t =>
      match sched with
      | [] => (LoopExit.blocked, evs)
      | Ready.tick :: rest => waitLoop (some t) rest (evs ++ [Event.tick])
      | Ready.timer :: _ => (LoopExit.done, evs ++ [Event.timerFired])

/-- The method `executor.Execute`, run under the environment `env`, with the schedule
`sched` for its wait loop. The ticker `tick` and the deadline `countdown` only feed the
log line of the tick case and are left out with it. -/
def executor.Execute (svc : Services σ π κ ε) (env : Environ) (e : executor σ κ ε)
    (sched : List Ready) (s : σ) : Run σ (Outcome ε) :=
  if DualPassEnabled env then
    let t := e.executionPlan.DualPassTimer s
    let l := ListPulls svc e.executionPlan.client t.state
    let w := waitLoop t.result sched ([Event.dualPassTimer] ++ t.events ++ l.events)
    match w.1 with
    | LoopExit.done =>
      let r := e.executionPlan.Execute l.state
      ⟨Outcome.returned r.result, r.state, w.2 ++ [Event.planExecute] ++ r.events⟩
    | LoopExit.nilDereference => ⟨Outcome.nilDereference, l.state, w.2⟩
    | LoopExit.blocked => ⟨Outcome.blocked, l.state, w.2⟩
  else
    let r := e.executionPlan.Execute s
    ⟨Outcome.returned r.result, r.state, [Event.planExecute] ++ r.events⟩

end Model

/-! ## Sample data -/

/-- A pull request as far as the execution plan looks at it: its number, the issue id
found in its text, if any, and whether it reports a conflict. -/
structure Pull where
  Number : Nat
  issue : Option String
  conflict : Bool
  deriving DecidableEq, Repr

/-- Services for the samples: every listing call answers `listing`, the id of a pull
request is its `issue`, and the state is the list of the issues for which a transition
was asked; `ok` is what every transition answers. -/
def sampleServices (listing : List Pull × Option String) (ok : Bool) :
    Services (List String) Pull Unit String where
  listPulls := fun _ s => (listing, s)
  IssueID := fun p =>
    match p.issue with
    | some i => (i, true)
    | none => ("", false)
  hasConflict := fun p => p.conflict
  transitionIssue := fun i s => (ok, s ++ [i])

/-- The three pull requests of the example: 1 has a conflict and no id, 2 has the id
ABC-1 and no conflict, 3 has the id ABC-2 and a conflict. -/
def samplePulls : List Pull :=
  [⟨1, none, true⟩, ⟨2, some "ABC-1", false⟩, ⟨3, some "ABC-2", true⟩]

/-- The default plan of the samples. -/
def samplePlan : DefaultExecutionPlan Unit := ⟨()⟩

/-! ## Part 3: the parser always answers -/

section Parser

theorem leadingInt_length (s : List Char) :
    ∀ (x v : Nat) (r : List Char), leadingInt s x = some (v, r) → r.length ≤ s.length := by
  induction s with
  | nil =>
    intro x v r h
    simp only [leadingInt, Option.some.injEq, Prod.mk.injEq] at h
    rw [← h.2]
  | cons c cs ih =>
    intro x v r h
    unfold leadingInt at h
    split at h
    · simp only [Option.some.injEq, Prod.mk.injEq] at h
      rw [← h.2]
    · split at h
      · exact absurd h (by simp)
      · simp only at h
        split at h
        · exact absurd h (by simp)
        · exact Nat.le_succ_of_le (ih _ v r h)

theorem leadingFraction_length (s : List Char) :
    ∀ (x : Nat) (scale : F64) (o : Bool),
      (leadingFraction s x scale o).2.2.length ≤ s.length := by
  induction s with
  | nil => intro x scale o; simp [leadingFraction]
  | cons c cs ih =>
    intro x scale o
    unfold leadingFraction
    split
    · exact Nat.le_refl _
    · split
      · exact Nat.le_succ_of_le (ih _ _ _)
      · split
        · exact Nat.le_succ_of_le (ih _ _ _)
        · simp only
          split
          · exact Nat.le_succ_of_le (ih _ _ _)
          · exact Nat.le_succ_of_le (ih _ _ _)

theorem unitSpan_length (s : List Char) :
    (unitSpan s).1.length + (unitSpan s).2.length = s.length := by
  induction s with
  | nil => simp [unitSpan]
  | cons c cs ih =>
    unfold unitSpan
    split
    · simp
    · simp only [List.length_cons]
      omega

theorem fractionPart_length (s : List Char) : (fractionPart s).2.2.1.length ≤ s.length := by
  unfold fractionPart
  split
  · rename_i t
    have h := leadingFraction_length t 0 (F64.fin 1 0) false
    simp only [List.length_cons]
    omega
  · exact Nat.le_refl _

theorem parseTerm_length (s : List Char) (v : Nat) (r : List Char)
    (h : parseTerm s = .ok (v, r)) : r.length < s.length := by
  cases s with
  | nil => simp [parseTerm] at h
  | cons c cs =>
    simp only [parseTerm] at h
    split at h
    · exact absurd h (by simp)
    · split at h
      · exact absurd h (by simp)
      · rename_i v0 s1 hli
        have h1 := leadingInt_length _ _ _ _ hli
        have h2 := fractionPart_length s1
        have h3 := unitSpan_length (fractionPart s1).2.2.1
        generalize fractionPart s1 = fr at h h2 h3
        simp only [List.length_cons] at h1 ⊢
        repeat' (split at h)
        all_goals first
          | (simp only [Except.ok.injEq, Prod.mk.injEq] at h
             rw [← h.2]
             omega)
          | simp at h

theorem parseTerms_fuel (fuel : Nat) :
    ∀ (s : List Char) (d : Nat), s.length ≤ fuel → parseTerms fuel s d ≠ none := by
  induction fuel with
  | zero =>
    intro s d h
    cases s with
    | nil => simp [parseTerms]
    | cons c cs => simp at h
  | succ n ih =>
    intro s d h
    cases s with
    | nil => simp [parseTerms]
    | cons c cs =>
      unfold parseTerms
      split
      · simp
      · rename_i v rest hp
        have hl := parseTerm_length _ _ _ hp
        simp only
        split
        · simp
        · apply ih
          simp only [List.length_cons] at h hl
          omega

/-- The fuel that `ParseDuration` gives to the loop is never used up. -/
theorem ParseDuration_fuel (s : List Char) : parseTerms s.length s 0 ≠ none :=
  parseTerms_fuel s.length s 0 (Nat.le_refl _)

set_option maxRecDepth 20000 in
set_option exponentiation.threshold 2000 in
/-- Rows of the table of `TestParseDuration` in the Go standard library, with fractions
of hours that need the binary64 arithmetic, and the two ends of the range; then
fractions with more than 22 digits, whose `scale` is a rounded binary64 number, and a
sum that wraps at `2 ^ 64`. -/
theorem ParseDuration_samples :
    ParseDuration "1h15m30.918273645s" = .ok 4530918273645 ∧
    ParseDuration "0.3333333333333333333h" = .ok 1200000000000 ∧
    ParseDuration "0.830103483285477580700h" = .ok 2988372539827 ∧
    ParseDuration "9223372036854775807ns" = .ok 9223372036854775807 ∧
    ParseDuration "-9223372036854775808ns" = .ok (-9223372036854775808) ∧
    ParseDuration "9223372036854775808ns" = .error .invalidDuration ∧
    ParseDuration "3000000h" = .error .invalidDuration ∧
    ParseDuration ".s" = .error .invalidDuration ∧
    ParseDuration "3" = .error .missingUnit ∧
    ParseDuration "1d" = .error (.unknownUnit "d") ∧
    ParseDuration "0.0000000000333333333333333333m" = .ok 2 ∧
    ParseDuration "0.0000000000166666666666666669m" = .ok 1 ∧
    ParseDuration "2562047h47m16.854775806s0.0000000000333333333333333333m"
      = .error .invalidDuration ∧
    ParseDuration "9223372036854775806ns0.0000000000333333333333333333m9223372036854775808ns"
      = .ok 0 := by
  refine ⟨?_, ?_, ?_, ?_, ?_, ?_, ?_, ?_, ?_, ?_, ?_, ?_, ?_, ?_⟩ <;> rfl

end Parser

/-! ## Part 4: helper lemmas about the plan and the executor -/

section Helpers

variable {σ π κ ε : Type}

theorem pullLoop_events (svc : Services σ π κ ε) (pulls : List π) :
    ∀ (i : String) (o : Bool) (s : σ) (evs : List Event),
      (pullLoop svc pulls i o s evs).2 = evs ++
        (pulls.filter (fun p => (svc.IssueID p).2 && svc.hasConflict p)).map
          (fun p => Event.transition (svc.IssueID p).1) := by
  induction pulls with
  | nil => intro i o s evs; simp [pullLoop]
  | cons p rest ih =>
    intro i o s evs
    unfold pullLoop
    cases hid : (svc.IssueID p).2 <;> cases hc : svc.hasConflict p <;>
      simp [hid, hc, ih, TransitionIssue]

theorem execute_events (svc : Services σ π κ ε) (e : DefaultExecutionPlan κ) (s : σ) :
    (DefaultExecutionPlan.Execute svc e s).events =
      match (svc.listPulls e.GithubClient s).1.2 with
      | some _ => [Event.listPulls]
      | none => Event.listPulls ::
          ((svc.listPulls e.GithubClient s).1.1.filter
            (fun p => (svc.IssueID p).2 && svc.hasConflict p)).map
            (fun p => Event.transition (svc.IssueID p).1) := by
  unfold DefaultExecutionPlan.Execute
  cases h : (svc.listPulls e.GithubClient s).1.2 <;>
    simp [ListPulls, h, pullLoop_events]

theorem pullLoop_state (svc : Services σ π κ ε) (pulls : List π) :
    ∀ (i : String) (o : Bool) (s : σ) (evs : List Event),
      (pullLoop svc pulls i o s evs).1 =
        (pulls.filter (fun p => (svc.IssueID p).2 && svc.hasConflict p)).foldl
          (fun st p => (svc.transitionIssue (svc.IssueID p).1 st).2) s := by
  induction pulls with
  | nil => intro i o s evs; simp [pullLoop]
  | cons p rest ih =>
    intro i o s evs
    unfold pullLoop
    cases hid : (svc.IssueID p).2 <;> cases hc : svc.hasConflict p <;>
      simp [hid, hc, ih, TransitionIssue]

theorem execute_state (svc : Services σ π κ ε) (e : DefaultExecutionPlan κ) (s : σ) :
    (DefaultExecutionPlan.Execute svc e s).state =
      match (svc.listPulls e.GithubClient s).1.2 with
      | some _ => (svc.listPulls e.GithubClient s).2
      | none =>
        ((svc.listPulls e.GithubClient s).1.1.filter
          (fun p => (svc.IssueID p).2 && svc.hasConflict p)).foldl
          (fun st p => (svc.transitionIssue (svc.IssueID p).1 st).2)
          (svc.listPulls e.GithubClient s).2 := by
  unfold DefaultExecutionPlan.Execute
  cases h : (svc.listPulls e.GithubClient s).1.2 <;>
    simp [ListPulls, h, pullLoop_state]

theorem execute_result (svc : Services σ π κ ε) (e : DefaultExecutionPlan κ) (s : σ) :
    (DefaultExecutionPlan.Execute svc e s).result = (svc.listPulls e.GithubClient s).1.2 := by
  unfold DefaultExecutionPlan.Execute
  cases h : (svc.listPulls e.GithubClient s).1.2 <;> simp [ListPulls, h]

theorem DualPassEnabled_of_error (env : Environ) (perr : ParseError)
    (h : ParseDuration (Getenv env "DUAL_PASS_WAIT_DURATION") = .error perr) :
    DualPassEnabled env = false := by
  simp [DualPassEnabled, h]

theorem execute_single_pass (svc : Services σ π κ ε) (env : Environ) (ex : executor σ κ ε)
    (sched : List Ready) (s : σ) (h : DualPassEnabled env = false) :
    executor.Execute svc env ex sched s =
      ⟨Outcome.returned (ex.executionPlan.Execute s).result, (ex.executionPlan.Execute s).state,
        Event.planExecute :: (ex.executionPlan.Execute s).events⟩ := by
  simp [executor.Execute, h]

theorem waitLoop_ticks (t : Timer) (rest : List Ready) (n : Nat) :
    ∀ evs : List Event,
      waitLoop (some t) (List.replicate n Ready.tick ++ Ready.timer :: rest) evs =
        (LoopExit.done, evs ++ List.replicate n Event.tick ++ [Event.timerFired]) := by
  induction n with
  | zero => intro evs; simp [waitLoop]
  | succ n ih =>
    intro evs
    simp [List.replicate_succ, waitLoop, ih]

theorem waitLoop_nil (sched : List Ready) (evs : List Event) :
    waitLoop none sched evs = (LoopExit.nilDereference, evs) := by
  cases sched <;> simp [waitLoop]

theorem schedule_split (sched : List Ready) (h : Ready.timer ∈ sched) :
    ∃ (n : Nat) (rest : List Ready), sched = List.replicate n Ready.tick ++ Ready.timer :: rest := by
  induction sched with
  | nil => simp at h
  | cons r rs ih =>
    cases r with
    | timer => exact ⟨0, rs, by simp⟩
    | tick =>
      have h1 : Ready.timer ∈ rs := by simpa using h
      obtain ⟨n, rest, hn⟩ := ih h1
      exact ⟨n + 1, rest, by simp [List.replicate_succ, hn]⟩

end Helpers

/-! ## Part 5: the properties of the execution plan -/

section Plan

variable {σ π κ ε : Type}

/-- Claim C1. When the listing call succeeds, the calls that
`DefaultExecutionPlan.Execute` makes are the listing call followed by one transition
call for each listed pull request that has an issue id and reports a conflict, in
listing order, each with the id of that same pull request; the other pull requests
cause no call and equal ids are not merged. The calls are really made: the state that
`Execute` leaves is the state after the listing call with the transition collaborator
applied to it once for each of those pull requests, in that order, with that id. -/
theorem execute_transition_calls (svc : Services σ π κ ε) (e : DefaultExecutionPlan κ)
    (s : σ) (h : (svc.listPulls e.GithubClient s).1.2 = none) :
    (DefaultExecutionPlan.Execute svc e s).result = none ∧
    (DefaultExecutionPlan.Execute svc e s).events =
      Event.listPulls ::
        ((svc.listPulls e.GithubClient s).1.1.filter
          (fun p => (svc.IssueID p).2 && svc.hasConflict p)).map
          (fun p => Event.transition (svc.IssueID p).1) ∧
    (DefaultExecutionPlan.Execute svc e s).state =
      ((svc.listPulls e.GithubClient s).1.1.filter
        (fun p => (svc.IssueID p).2 && svc.hasConflict p)).foldl
        (fun st p => (svc.transitionIssue (svc.IssueID p).1 st).2)
        (svc.listPulls e.GithubClient s).2 := by
  refine ⟨?_, ?_, ?_⟩
  · rw [execute_result, h]
  · rw [execute_events, h]
  · rw [execute_state, h]

/-- Claim C1 on the example: the pull requests 1 (no id, conflict), 2 (ABC-1, no
conflict) and 3 (ABC-2, conflict) give exactly one transition call, for ABC-2, and the
issue tracker has received exactly that one request. -/
theorem execute_transition_calls_witness :
    ((sampleServices (samplePulls, none) true).listPulls samplePlan.GithubClient []).1.2 = none ∧
    (DefaultExecutionPlan.Execute (sampleServices (samplePulls, none) true) samplePlan []).result
      = none ∧
    (DefaultExecutionPlan.Execute (sampleServices (samplePulls, none) true) samplePlan []).events =
      [Event.listPulls, Event.transition "ABC-2"] ∧
    (DefaultExecutionPlan.Execute (sampleServices (samplePulls, none) true) samplePlan []).state =
      ["ABC-2"] :=
  ⟨rfl,
    (execute_transition_calls (sampleServices (samplePulls, none) true) samplePlan [] rfl).1,
    (execute_transition_calls (sampleServices (samplePulls, none) true) samplePlan []
      rfl).2.1.trans (by decide),
    (execute_transition_calls (sampleServices (samplePulls, none) true) samplePlan []
      rfl).2.2.trans (by decide)⟩

/-- Claim C2. When the listing call returns the error `err`,
`DefaultExecutionPlan.Execute` returns `err` and makes no call but the listing call;
and in single-pass mode `executor.Execute` over that plan returns `err` too, having
only invoked the plan, which made the listing call. -/
theorem execute_listing_error (svc : Services σ π κ ε) (e : DefaultExecutionPlan κ)
    (env : Environ) (sched : List Ready) (s : σ) (err : ε)
    (h : (svc.listPulls e.GithubClient s).1.2 = some err)
    (hm : DualPassEnabled env = false) :
    (DefaultExecutionPlan.Execute svc e s).result = some err ∧
    (DefaultExecutionPlan.Execute svc e s).events = [Event.listPulls] ∧
    (executor.Execute svc env (NewExecutor (DefaultExecutionPlan.toPlan svc env e)) sched s).result
      = Outcome.returned (some err) ∧
    (executor.Execute svc env (NewExecutor (DefaultExecutionPlan.toPlan svc env e)) sched s).events
      = [Event.planExecute, Event.listPulls] := by
  have hr : (DefaultExecutionPlan.Execute svc e s).result = some err := by
    rw [execute_result, h]
  have he : (DefaultExecutionPlan.Execute svc e s).events = [Event.listPulls] := by
    rw [execute_events, h]
  refine ⟨hr, he, ?_, ?_⟩
  · rw [execute_single_pass svc env _ sched s hm]
    simpa [NewExecutor, DefaultExecutionPlan.toPlan] using hr
  · rw [execute_single_pass svc env _ sched s hm]
    simpa [NewExecutor, DefaultExecutionPlan.toPlan] using he

/-- Claim C2 on a sample: the listing fails with "boom" although it also carries pull
requests, and the variable is not set. -/
theorem execute_listing_error_witness :
    ((sampleServices (samplePulls, some "boom") true).listPulls samplePlan.GithubClient []).1.2
      = some "boom" ∧
    DualPassEnabled envUnset = false ∧
    (DefaultExecutionPlan.Execute (sampleServices (samplePulls, some "boom") true)
      samplePlan []).result = some "boom" ∧
    (DefaultExecutionPlan.Execute (sampleServices (samplePulls, some "boom") true)
      samplePlan []).events = [Event.listPulls] ∧
    (executor.Execute (sampleServices (samplePulls, some "boom") true) envUnset
      (NewExecutor (DefaultExecutionPlan.toPlan (sampleServices (samplePulls, some "boom") true)
        envUnset samplePlan)) [] []).result = Outcome.returned (some "boom") ∧
    (executor.Execute (sampleServices (samplePulls, some "boom") true) envUnset
      (NewExecutor (DefaultExecutionPlan.toPlan (sampleServices (samplePulls, some "boom") true)
        envUnset samplePlan)) [] []).events = [Event.planExecute, Event.listPulls] :=
  ⟨rfl, by decide,
    execute_listing_error (sampleServices (samplePulls, some "boom") true) samplePlan envUnset
      [] [] "boom" rfl (by decide)⟩

/-- Claim C3. When the listing call succeeds, `DefaultExecutionPlan.Execute` returns
success and makes the same calls whatever the transition calls answer and do: with the
transition function of the services replaced by any other one, the result is still
success and the events are unchanged. -/
theorem execute_ignores_transition_results (svc : Services σ π κ ε)
    (tr : String → σ → Bool × σ) (e : DefaultExecutionPlan κ) (s : σ)
    (h : (svc.listPulls e.GithubClient s).1.2 = none) :
    (DefaultExecutionPlan.Execute
      ⟨svc.listPulls, svc.IssueID, svc.hasConflict, tr⟩ e s).result = none ∧
    (DefaultExecutionPlan.Execute
      ⟨svc.listPulls, svc.IssueID, svc.hasConflict, tr⟩ e s).events =
      (DefaultExecutionPlan.Execute svc e s).events := by
  constructor
  · rw [execute_result]
    exact h
  · rw [execute_events, execute_events]

/-- Claim C3 on a sample: two pull requests with an id and a conflict, every transition
failing; both transition calls are made, as when every transition succeeds. -/
theorem execute_ignores_transition_results_witness :
    ((sampleServices ([⟨3, some "ABC-2", true⟩, ⟨4, some "ABC-3", true⟩], none) true).listPulls
      samplePlan.GithubClient []).1.2 = none ∧
    (DefaultExecutionPlan.Execute
      (sampleServices ([⟨3, some "ABC-2", true⟩, ⟨4, some "ABC-3", true⟩], none) false)
      samplePlan []).result = none ∧
    (DefaultExecutionPlan.Execute
      (sampleServices ([⟨3, some "ABC-2", true⟩, ⟨4, some "ABC-3", true⟩], none) false)
      samplePlan []).events =
      (DefaultExecutionPlan.Execute
        (sampleServices ([⟨3, some "ABC-2", true⟩, ⟨4, some "ABC-3", true⟩], none) true)
        samplePlan []).events ∧
    (DefaultExecutionPlan.Execute
      (sampleServices ([⟨3, some "ABC-2", true⟩, ⟨4, some "ABC-3", true⟩], none) false)
      samplePlan []).events =
      [Event.listPulls, Event.transition "ABC-2", Event.transition "ABC-3"] :=
  ⟨rfl,
    (execute_ignores_transition_results
      (sampleServices ([⟨3, some "ABC-2", true⟩, ⟨4, some "ABC-3", true⟩], none) true)
      (fun i s => (false, s ++ [i])) samplePlan [] rfl).1,
    (execute_ignores_transition_results
      (sampleServices ([⟨3, some "ABC-2", true⟩, ⟨4, some "ABC-3", true⟩], none) true)
      (fun i s => (false, s ++ [i])) samplePlan [] rfl).2,
    by decide⟩

/-- Claim C9. Two invocations of `DefaultExecutionPlan.Execute` in succession, the
second on the state that the first leaves, make the same calls and return the same
value when the listing call answers the second time what it answered the first time;
each invocation starts with a listing call of its own. -/
theorem execute_twice_same (svc : Services σ π κ ε) (e : DefaultExecutionPlan κ) (s : σ)
    (h : (svc.listPulls e.GithubClient (DefaultExecutionPlan.Execute svc e s).state).1 =
      (svc.listPulls e.GithubClient s).1) :
    (DefaultExecutionPlan.Execute svc e (DefaultExecutionPlan.Execute svc e s).state).result =
      (DefaultExecutionPlan.Execute svc e s).result ∧
    (DefaultExecutionPlan.Execute svc e (DefaultExecutionPlan.Execute svc e s).state).events =
      (DefaultExecutionPlan.Execute svc e s).events ∧
    (DefaultExecutionPlan.Execute svc e (DefaultExecutionPlan.Execute svc e s).state).events.head?
      = some Event.listPulls := by
  refine ⟨?_, ?_, ?_⟩
  · rw [execute_result, execute_result, h]
  · rw [execute_events svc e (DefaultExecutionPlan.Execute svc e s).state, execute_events svc e s,
      h]
  · rw [execute_events]
    cases (svc.listPulls e.GithubClient (DefaultExecutionPlan.Execute svc e s).state).1.2 <;> rfl

/-- Claim C9 on the example: run twice, the plan asks for the transition of ABC-2 both
times, and the issue tracker has received two requests. -/
theorem execute_twice_same_witness :
    ((sampleServices (samplePulls, none) true).listPulls samplePlan.GithubClient
      (DefaultExecutionPlan.Execute (sampleServices (samplePulls, none) true)
        samplePlan []).state).1 =
      ((sampleServices (samplePulls, none) true).listPulls samplePlan.GithubClient []).1 ∧
    (DefaultExecutionPlan.Execute (sampleServices (samplePulls, none) true) samplePlan
      (DefaultExecutionPlan.Execute (sampleServices (samplePulls, none) true)
        samplePlan []).state).events =
      (DefaultExecutionPlan.Execute (sampleServices (samplePulls, none) true)
        samplePlan []).events ∧
    (DefaultExecutionPlan.Execute (sampleServices (samplePulls, none) true) samplePlan
      (DefaultExecutionPlan.Execute (sampleServices (samplePulls, none) true)
        samplePlan []).state).events = [Event.listPulls, Event.transition "ABC-2"] ∧
    (DefaultExecutionPlan.Execute (sampleServices (samplePulls, none) true) samplePlan
      (DefaultExecutionPlan.Execute (sampleServices (samplePulls, none) true)
        samplePlan []).state).state = ["ABC-2", "ABC-2"] :=
  ⟨rfl,
    (execute_twice_same (sampleServices (samplePulls, none) true) samplePlan [] rfl).2.1,
    by decide, by decide⟩

end Plan

/-! ## Part 6: the mode decision and the executor -/

section Executor

variable {σ π κ ε : Type}

/-- Claim C4 as written fails at "-5s": the value parses to a negative duration, so it
is not a parsed duration that is positive or zero, yet `DualPassEnabled` returns
true. -/
theorem dualPassEnabled_negative_counterexample :
    ¬ (DualPassEnabled (envWith "-5s") = true ↔
      ∃ d : Duration, ParseDuration (Getenv (envWith "-5s") "DUAL_PASS_WAIT_DURATION") = .ok d ∧
        0 ≤ d) := by
  intro h
  obtain ⟨d, hd, hpos⟩ := h.mp (by decide)
  have h5 : ParseDuration (Getenv (envWith "-5s") "DUAL_PASS_WAIT_DURATION")
      = .ok (-5000000000) := by rfl
  rw [h5] at hd
  injection hd with hd
  subst hd
  exact absurd hpos (by decide)

/-- Claim C4, amended. For every environment, `DualPassEnabled` returns true exactly
when the value of `DUAL_PASS_WAIT_DURATION` (empty when unset) parses as a duration,
whatever its sign; "-5s" parses to minus five seconds and enables dual-pass mode. -/
theorem dualPassEnabled_iff_parses (env : Environ) :
    (DualPassEnabled env = true ↔
      ∃ d : Duration, ParseDuration (Getenv env "DUAL_PASS_WAIT_DURATION") = .ok d) ∧
    ParseDuration (Getenv (envWith "-5s") "DUAL_PASS_WAIT_DURATION") = .ok (-5 * Second) ∧
    DualPassEnabled (envWith "-5s") = true := by
  refine ⟨?_, by rfl, by decide⟩
  unfold DualPassEnabled
  cases ParseDuration (Getenv env "DUAL_PASS_WAIT_DURATION") <;> simp

/-- Claim C5. For every environment whose value of `DUAL_PASS_WAIT_DURATION` (empty
when unset) fails duration parsing, `DualPassEnabled` returns false and
`dualPassInterval` returns the zero duration; both are total and return no error. The
empty string and the unset variable are such values. -/
theorem invalid_duration_disables (env : Environ) (perr : ParseError)
    (h : ParseDuration (Getenv env "DUAL_PASS_WAIT_DURATION") = .error perr) :
    DualPassEnabled env = false ∧ dualPassInterval env = 0 ∧
    ParseDuration (Getenv (envWith "") "DUAL_PASS_WAIT_DURATION") = .error .invalidDuration ∧
    ParseDuration (Getenv envUnset "DUAL_PASS_WAIT_DURATION") = .error .invalidDuration := by
  refine ⟨DualPassEnabled_of_error env perr h, ?_, by rfl, by rfl⟩
  simp [dualPassInterval, h, Second]

/-- Claim C5 at "5 seconds", a value with an unknown unit. -/
theorem invalid_duration_disables_witness :
    ParseDuration (Getenv (envWith "5 seconds") "DUAL_PASS_WAIT_DURATION")
      = .error (.unknownUnit " seconds") ∧
    (DualPassEnabled (envWith "5 seconds") = false ∧ dualPassInterval (envWith "5 seconds") = 0 ∧
      ParseDuration (Getenv (envWith "") "DUAL_PASS_WAIT_DURATION") = .error .invalidDuration ∧
      ParseDuration (Getenv envUnset "DUAL_PASS_WAIT_DURATION") = .error .invalidDuration) :=
  ⟨by rfl, invalid_duration_disables (envWith "5 seconds") (.unknownUnit " seconds") (by rfl)⟩

/-- Claim C6, the code at the candidate inputs. "0s" and "-5s" are valid duration
strings and `DualPassEnabled` returns true for them, yet `DualPassTimer` returns nil;
"2s" gives a timer armed with two seconds and the empty string gives nil. -/
theorem dualPassTimer_nil_for_valid_duration (e : DefaultExecutionPlan κ) :
    (ParseDuration "0s" = .ok 0 ∧ DualPassEnabled (envWith "0s") = true ∧
      DefaultExecutionPlan.DualPassTimer (envWith "0s") e = none) ∧
    (ParseDuration "-5s" = .ok (-5 * Second) ∧ DualPassEnabled (envWith "-5s") = true ∧
      DefaultExecutionPlan.DualPassTimer (envWith "-5s") e = none) ∧
    (DualPassEnabled (envWith "2s") = true ∧
      DefaultExecutionPlan.DualPassTimer (envWith "2s") e = some (NewTimer (2 * Second))) ∧
    (DualPassEnabled (envWith "") = false ∧
      DefaultExecutionPlan.DualPassTimer (envWith "") e = none) := by
  refine ⟨⟨by rfl, by decide, by rfl⟩, ⟨by rfl, by decide, by rfl⟩, ⟨by decide, by rfl⟩,
    ⟨by decide, by rfl⟩⟩

/-- Claim C7. In single-pass mode, the value of `DUAL_PASS_WAIT_DURATION` (empty when
unset) failing to parse, `executor.Execute` invokes the plan's `Execute` once, on the
state it was started in, and returns its result and state; its events are the
invocation followed by the events of the plan's `Execute`, so the executor itself
lists no pull requests, asks for no timer and handles no tick, whatever the
schedule. -/
theorem single_pass_runs_plan_once (svc : Services σ π κ ε) (env : Environ)
    (ex : executor σ κ ε) (sched : List Ready) (s : σ) (perr : ParseError)
    (h : ParseDuration (Getenv env "DUAL_PASS_WAIT_DURATION") = .error perr) :
    executor.Execute svc env ex sched s =
      ⟨Outcome.returned (ex.executionPlan.Execute s).result, (ex.executionPlan.Execute s).state,
        Event.planExecute :: (ex.executionPlan.Execute s).events⟩ :=
  execute_single_pass svc env ex sched s (DualPassEnabled_of_error env perr h)

/-- Claim C7 on the example, with the variable unset and ticks and a timer event on
offer: the plan is invoked once and makes its listing call and one transition call. -/
theorem single_pass_runs_plan_once_witness :
    ParseDuration (Getenv envUnset "DUAL_PASS_WAIT_DURATION") = .error .invalidDuration ∧
    (executor.Execute (sampleServices (samplePulls, none) true) envUnset
      (NewExecutor (DefaultExecutionPlan.toPlan (sampleServices (samplePulls, none) true)
        envUnset samplePlan)) [Ready.tick, Ready.timer] []).events =
      [Event.planExecute, Event.listPulls, Event.transition "ABC-2"] ∧
    (executor.Execute (sampleServices (samplePulls, none) true) envUnset
      (NewExecutor (DefaultExecutionPlan.toPlan (sampleServices (samplePulls, none) true)
        envUnset samplePlan)) [Ready.tick, Ready.timer] []).result = Outcome.returned none :=
  ⟨by rfl,
    (congrArg Run.events (single_pass_runs_plan_once (sampleServices (samplePulls, none) true)
      envUnset (NewExecutor (DefaultExecutionPlan.toPlan
        (sampleServices (samplePulls, none) true) envUnset samplePlan))
      [Ready.tick, Ready.timer] [] .invalidDuration (by rfl))).trans (by decide),
    by decide⟩

/-- Claim C8. In dual-pass mode, over a plan whose timer accessor returns a timer, and
for every schedule of the wait loop in which the timer case is taken at some point:
the schedule is `n` ticks, the timer, and a rest that is never looked at, and
`executor.Execute` asks the plan for its timer, makes one listing call whose result it
drops, handles the `n` ticks, takes the timer, invokes the plan's `Execute` once on
the state after the listing call, and returns that invocation's result. With the timer
request left out, its events are the listing call, the ticks, the timer firing and the
invocation, then the events of the plan's `Execute`. Of the configured wait only that
it parses is used; a positive wait such as "2s" is one such case. -/
theorem dual_pass_trace (svc : Services σ π κ ε) (env : Environ) (ex : executor σ κ ε)
    (sched : List Ready) (s : σ) (t : Timer)
    (hm : DualPassEnabled env = true)
    (ht : (ex.executionPlan.DualPassTimer s).result = some t)
    (hs : Ready.timer ∈ sched) :
    ∃ (n : Nat) (rest : List Ready),
      sched = List.replicate n Ready.tick ++ Ready.timer :: rest ∧
      executor.Execute svc env ex sched s =
        ⟨Outcome.returned (ex.executionPlan.Execute
            (ListPulls svc ex.executionPlan.client (ex.executionPlan.DualPassTimer s).state).state).result,
          (ex.executionPlan.Execute
            (ListPulls svc ex.executionPlan.client (ex.executionPlan.DualPassTimer s).state).state).state,
          [Event.dualPassTimer] ++ (ex.executionPlan.DualPassTimer s).events ++ [Event.listPulls] ++
            List.replicate n Event.tick ++ [Event.timerFired, Event.planExecute] ++
            (ex.executionPlan.Execute
              (ListPulls svc ex.executionPlan.client
                (ex.executionPlan.DualPassTimer s).state).state).events⟩ := by
  obtain ⟨n, rest, hn⟩ := schedule_split sched hs
  refine ⟨n, rest, hn, ?_⟩
  simp [executor.Execute, hm, ht, hn, waitLoop_ticks, ListPulls]

/-- Claim C8 on the example with a wait of "2s": the default plan arms a timer of two
seconds, and under the schedule tick, tick, timer, tick the executor makes the refresh
listing call, handles two ticks, takes the timer and then invokes the plan, which
lists again and asks for the transition of ABC-2; the last tick is never handled. -/
theorem dual_pass_trace_witness :
    DualPassEnabled (envWith "2s") = true ∧
    ((NewExecutor (DefaultExecutionPlan.toPlan (sampleServices (samplePulls, none) true)
      (envWith "2s") samplePlan)).executionPlan.DualPassTimer []).result
      = some (NewTimer (2 * Second)) ∧
    Ready.timer ∈ [Ready.tick, Ready.tick, Ready.timer, Ready.tick] ∧
    (∃ (n : Nat) (rest : List Ready),
      [Ready.tick, Ready.tick, Ready.timer, Ready.tick]
        = List.replicate n Ready.tick ++ Ready.timer :: rest ∧
      executor.Execute (sampleServices (samplePulls, none) true) (envWith "2s")
        (NewExecutor (DefaultExecutionPlan.toPlan (sampleServices (samplePulls, none) true)
          (envWith "2s") samplePlan)) [Ready.tick, Ready.tick, Ready.timer, Ready.tick] [] =
        ⟨Outcome.returned none, ["ABC-2"],
          [Event.dualPassTimer, Event.listPulls, Event.tick, Event.tick, Event.timerFired,
            Event.planExecute, Event.listPulls, Event.transition "ABC-2"]⟩) := by
  refine ⟨by decide, by rfl, by decide, ?_⟩
  obtain ⟨n, rest, hn, hr⟩ := dual_pass_trace (sampleServices (samplePulls, none) true)
    (envWith "2s") (NewExecutor (DefaultExecutionPlan.toPlan
      (sampleServices (samplePulls, none) true) (envWith "2s") samplePlan))
    [Ready.tick, Ready.tick, Ready.timer, Ready.tick] [] (NewTimer (2 * Second))
    (by decide) (by rfl) (by decide)
  refine ⟨n, rest, hn, hr.trans ?_⟩
  have h2 : n = 2 := by
    rcases n with _ | _ | _ | n
    · simp at hn
    · simp at hn
    · rfl
    · simp [List.replicate_succ] at hn
  subst h2
  rfl

/-- Claim C10, the code at "0s". `DualPassEnabled` returns true and the default plan's
`DualPassTimer` returns nil, so `executor.Execute` asks for the timer, makes the refresh
listing call and then stops with a nil pointer dereference when the wait loop reads
`timer.C`: whatever the services, the schedule and the state, the plan's `Execute` is
never invoked. -/
theorem zero_wait_faults (svc : Services σ π κ ε) (e : DefaultExecutionPlan κ)
    (sched : List Ready) (s : σ) :
    DualPassEnabled (envWith "0s") = true ∧
    DefaultExecutionPlan.DualPassTimer (envWith "0s") e = none ∧
    (executor.Execute svc (envWith "0s")
      (NewExecutor (DefaultExecutionPlan.toPlan svc (envWith "0s") e)) sched s).result
      = Outcome.nilDereference ∧
    (executor.Execute svc (envWith "0s")
      (NewExecutor (DefaultExecutionPlan.toPlan svc (envWith "0s") e)) sched s).events
      = [Event.dualPassTimer, Event.listPulls] := by
  have hm : DualPassEnabled (envWith "0s") = true := by decide
  have ht : DefaultExecutionPlan.DualPassTimer (envWith "0s") e = none := by rfl
  refine ⟨hm, ht, ?_, ?_⟩ <;>
    simp [executor.Execute, hm, ht, NewExecutor, DefaultExecutionPlan.toPlan, waitLoop_nil,
      ListPulls]

end Executor

end Prwatch
